import Mathlib

/-!
# turbo-wookie: the HTTP gateway of `backend/turbo-wookie/TWHandler.go`

A shallow embedding of the gateway (`TWHandler`), its four control handlers,
the two response helpers `printError` and `jsoniffy`, and the route table that
`NewTWHandler` builds, followed by theorems about them.

Go strings are modelled as sequences of Unicode code points (`String`, with
`List Char` for the character level work), that is, as valid UTF-8 text.
The library routines the handlers call (`fmt.Fprintf`, `json.MarshalIndent`,
`path.Clean`, the gorilla/mux router, `httputil.NewSingleHostReverseProxy` and
the forwarding of `httputil.ReverseProxy`) are transcribed from the Go standard library (1.22) and gorilla/mux (1.8), for
exactly the way this file calls them.
-/

namespace TurboWookie

/-! ## `fmt.Fprintf(w, format)` with no operands

Every call of `fmt.Fprintf` in `TWHandler.go` passes the text to send as the
FORMAT and passes no operand.  `doPrintf` below is `(*pp).doPrintf(format, a)`
of `fmt/print.go` specialised to `len(a) = 0`: the operand index stays 0, the
fast path for simple verbs (`argNum < len(a)`) is never taken, and every verb
other than `%%` finds no operand. -/

/-- The flag characters skipped right after a percent sign (`# 0 + - space`). -/
def isFlag (c : Char) : Bool :=
  c == '#' || c == '0' || c == '+' || c == '-' || c == ' '

/-- Digit test of `parsenum`: `'0' <= c && c <= '9'`. -/
def isDigit (c : Char) : Bool :=
  '0'.toNat ≤ c.toNat && c.toNat ≤ '9'.toNat

/-- The function `tooLarge` of `fmt/print.go`, on a number that is never negative. -/
def tooLarge (x : Nat) : Bool :=
  decide (x > 1000000)

/-- The loop of `parsenum`, on the text from the current position to `end`:
the number read so far, whether a digit was read, and the text left.  On
overflow Go returns `(0, false, end)`: nothing is left. -/
def parsenumLoop : Nat → Bool → List Char → Nat × Bool × List Char
  | num, isnum, [] => (num, isnum, [])
  | num, isnum, c :: cs =>
    if isDigit c then
      if tooLarge num then (0, false, [])
      else parsenumLoop (num * 10 + (c.toNat - '0'.toNat)) true cs
    else (num, isnum, c :: cs)

/-- The function `parsenum(s, start, end)`, on the text `s[start:end]`. -/
def parsenum (s : List Char) : Nat × Bool × List Char :=
  parsenumLoop 0 false s

/-- The function `parseArgNumber(format)`, where `format` starts at an opening
bracket: the number of characters to consume and whether the bracketed number
parsed.  The index itself is dropped: with no operands it is never in range. -/
def parseArgNumber (format : List Char) : Nat × Bool :=
  if format.length < 3 then (1, false)
  else
    let inner := (format.drop 1).takeWhile (fun c => c != ']')
    if (format.drop 1).all (fun c => c != ']') then (1, false)
    else
      let r := parsenum inner
      if r.2.1 && r.2.2.isEmpty then (inner.length + 2, true)
      else (inner.length + 2, false)

/-- Method `argNumber` with `numArgs = 0`: the text left, whether a
well-formed index was found, and whether `goodArgNum` stays set.  A bracket
always clears `goodArgNum`, no index being in range. -/
def argNumber (s : List Char) : List Char × Bool × Bool :=
  match s with
  | '[' :: _ =>
    let r := parseArgNumber s
    (s.drop r.1, r.2, false)
  | _ => (s, false, true)

/-- What one pass of the format loop did after a percent sign. -/
structure VerbResult where
  /-- Characters written to the buffer. -/
  out : List Char
  /-- Format text left to process. -/
  rest : List Char
  /-- The loop was left by `break` (no verb). -/
  stop : Bool

/-- The last step of a directive: the verb itself.  `%%` writes a percent
sign; any other verb has no operand and writes `%!v(BADINDEX)` or
`%!v(MISSING)`; a format that ends first writes `%!(NOVERB)`. -/
def verbOut (good : Bool) (s : List Char) : VerbResult :=
  match s with
  | [] => ⟨"%!(NOVERB)".data, [], true⟩
  | v :: rest =>
    if v == '%' then ⟨['%'], rest, false⟩
    else if !good then ⟨"%!".data ++ [v] ++ "(BADINDEX)".data, rest, false⟩
    else ⟨"%!".data ++ [v] ++ "(MISSING)".data, rest, false⟩

/-- The precision part of a directive (`.`, then an index, then `*` or a number). -/
def precision (afterIndex good : Bool) (s : List Char) :
    List Char × List Char × Bool × Bool :=
  match s with
  | '.' :: s1 =>
    let good1 := good && !afterIndex
    let a := argNumber s1
    let good2 := good1 && a.2.2
    match a.1 with
    | '*' :: s2 => ("%!(BADPREC)".data, s2, false, good2)
    | s2 => ([], (parsenum s2).2.2, a.2.1, good2)
  | _ => ([], s, afterIndex, good)

/-- One directive: the text after the percent sign is read as flags, an
optional operand index, a width, a precision, a second optional index and the
verb. -/
def verb (s : List Char) : VerbResult :=
  let s0 := s.dropWhile isFlag
  let a := argNumber s0
  let w : List Char × List Char × Bool × Bool :=
    match a.1 with
    | '*' :: s1 => ("%!(BADWIDTH)".data, s1, false, a.2.2)
    | s1 =>
      let r := parsenum s1
      ([], r.2.2, a.2.1, a.2.2 && !(a.2.1 && r.2.1))
  let p := precision w.2.2.1 w.2.2.2 w.2.1
  let b : List Char × Bool × Bool :=
    if p.2.2.1 then (p.2.1, true, p.2.2.2)
    else
      let a2 := argNumber p.2.1
      (a2.1, a2.2.1, p.2.2.2 && a2.2.2)
  let v := verbOut b.2.2 b.1
  ⟨w.1 ++ p.1 ++ v.out, v.rest, v.stop⟩

/-- The format loop of `doPrintf`: copy the text up to the next percent sign,
then process one directive.  Each pass consumes at least the percent sign, so
`fuel` larger than the length of the format is never exhausted. -/
def doPrintfLoop : Nat → List Char → List Char
  | 0, _ => []
  | fuel + 1, format =>
    let txt := format.takeWhile (fun c => c != '%')
    match format.dropWhile (fun c => c != '%') with
    | [] => txt
    | _ :: afterPercent =>
      let r := verb afterPercent
      if r.stop then txt ++ r.out
      else txt ++ r.out ++ doPrintfLoop fuel r.rest

/-- The text written by `fmt.Fprintf(w, format)`. -/
def doPrintf (format : List Char) : List Char :=
  doPrintfLoop (format.length + 1) format

/-- Go `fmt.Sprintf(format)`, on strings. -/
def Sprintf (format : String) : String :=
  ⟨doPrintf format.data⟩

/-! ## `json.MarshalIndent`

A Go value handed to the encoder is modelled by the JSON tree that reflection
reads off it (a `map[string]string` is an object whose keys come in sorted
order, a slice is an array).  `encodeString` is `appendString` of
`encoding/json/encode.go` with `escapeHTML = true`, the setting of
`json.Marshal`; `indentValue` lays the tree out as `json.Indent` does. -/

/-- A value as the JSON encoder sees it. -/
inductive Json where
  | null
  | bool (b : Bool)
  | num (n : Int)
  | str (s : String)
  | arr (elems : List Json)
  | obj (fields : List (String × Json))

/-- A track is opaque to the gateway: whatever value the control client
returns for a song, handed on to the encoder. -/
abbrev Track := Json

/-- Go `hex[n]`, for `const hex = "0123456789abcdef"`. -/
def hexDigit (n : Nat) : Char :=
  "0123456789abcdef".data.getD n '0'

/-- Table `htmlSafeSet`: the ASCII characters written as they are, namely
those from space up except the double quote, the backslash and the three
HTML characters. -/
def htmlSafe (c : Char) : Bool :=
  decide (32 ≤ c.toNat) && decide (c.toNat < 128) &&
    !(c == '"' || c == '\\' || c == '<' || c == '>' || c == '&')

/-- The encoding of one character of a string. -/
def encodeChar (c : Char) : List Char :=
  if c.toNat < 128 then
    if htmlSafe c then [c]
    else if c == '\\' || c == '"' then ['\\', c]
    else if c.toNat = 8 then ['\\', 'b']
    else if c.toNat = 12 then ['\\', 'f']
    else if c == '\n' then ['\\', 'n']
    else if c == '\r' then ['\\', 'r']
    else if c == '\t' then ['\\', 't']
    else ['\\', 'u', '0', '0', hexDigit (c.toNat / 16), hexDigit (c.toNat % 16)]
  else if c.toNat = 8232 ∨ c.toNat = 8233 then
    ['\\', 'u', '2', '0', '2', hexDigit (c.toNat % 16)]
  else [c]

/-- The JSON string literal for `s`. -/
def encodeString (s : String) : List Char :=
  '"' :: (s.data.map encodeChar).flatten ++ ['"']

/-- Function `newline` of `encoding/json/indent.go`. -/
def newline (pfx indent : String) (depth : Nat) : List Char :=
  '\n' :: pfx.data ++ (List.replicate depth indent.data).flatten

mutual
/-- The indented text of a value at nesting depth `depth`. -/
def indentValue (pfx indent : String) (depth : Nat) : Json → List Char
  | .null => "null".data
  | .bool b => if b then "true".data else "false".data
  | .num n => (toString n).data
  | .str s => encodeString s
  | .arr [] => ['[', ']']
  | .arr (x :: xs) =>
    '[' :: newline pfx indent (depth + 1) ++ indentValue pfx indent (depth + 1) x
      ++ indentElems pfx indent (depth + 1) xs ++ newline pfx indent depth ++ [']']
  | .obj [] => ['\x7b', '\x7d']
  | .obj (kv :: kvs) =>
    '\x7b' :: newline pfx indent (depth + 1) ++ encodeString kv.1 ++ [':', ' ']
      ++ indentValue pfx indent (depth + 1) kv.2
      ++ indentFields pfx indent (depth + 1) kvs ++ newline pfx indent depth ++ ['\x7d']
/-- The elements of an array after the first, each after a comma and a new line. -/
def indentElems (pfx indent : String) (depth : Nat) : List Json → List Char
  | [] => []
  | x :: xs =>
    ',' :: newline pfx indent depth ++ indentValue pfx indent depth x
      ++ indentElems pfx indent depth xs
/-- The members of an object after the first. -/
def indentFields (pfx indent : String) (depth : Nat) : List (String × Json) → List Char
  | [] => []
  | kv :: kvs =>
    ',' :: newline pfx indent depth ++ encodeString kv.1 ++ [':', ' ']
      ++ indentValue pfx indent depth kv.2 ++ indentFields pfx indent depth kvs
end

/-- Go `json.MarshalIndent(v, prefix, indent)`.  On a JSON tree the encoder
cannot fail, so the error result is always nil and is left out. -/
def MarshalIndent (v : Json) (pfx indent : String) : String :=
  ⟨indentValue pfx indent 0 v⟩

/-! ## `path.Clean` and the path cleaning of gorilla/mux -/

/-- The backtracking of `path.Clean` on a `..` element, on the output buffer
held in reverse: `out.w--`, then `out.w--` again while `out.w > dotdot` and
the character at `out.w` is not a slash. -/
def backtrack (dotdot : Nat) : List Char → List Char
  | [] => []
  | c :: out => if decide (out.length > dotdot) && c != '/' then backtrack dotdot out else out

/-- The main loop of `path.Clean`: the unread part of the path, the output
buffer in reverse, and the index `dotdot` below which `..` may not backtrack. -/
def cleanLoop (rooted : Bool) : Nat → List Char → List Char → Nat → List Char
  | 0, _, out, _ => out
  | _ + 1, [], out, _ => out
  | fuel + 1, c :: rest, out, dotdot =>
    if c == '/' then
      cleanLoop rooted fuel rest out dotdot
    else if c == '.' && (rest.isEmpty || rest.head? == some '/') then
      cleanLoop rooted fuel rest out dotdot
    else if c == '.' && rest.head? == some '.'
        && ((rest.drop 1).isEmpty || (rest.drop 1).head? == some '/') then
      if out.length > dotdot then
        cleanLoop rooted fuel (rest.drop 1) (backtrack dotdot out) dotdot
      else if !rooted then
        let out1 := if out.length > 0 then '/' :: out else out
        cleanLoop rooted fuel (rest.drop 1) ('.' :: '.' :: out1) (out1.length + 2)
      else
        cleanLoop rooted fuel (rest.drop 1) out dotdot
    else
      let out1 :=
        if (rooted && out.length != 1) || (!rooted && out.length != 0) then '/' :: out else out
      cleanLoop rooted fuel ((c :: rest).dropWhile (fun x => x != '/'))
        (((c :: rest).takeWhile (fun x => x != '/')).reverse ++ out1) dotdot

/-- Go `path.Clean`, on the characters of the path. -/
def CleanChars (path : List Char) : List Char :=
  match path with
  | [] => ['.']
  | c :: rest =>
    let out :=
      if c == '/' then (cleanLoop true (rest.length + 1) rest ['/'] 1).reverse
      else (cleanLoop false (rest.length + 2) (c :: rest) [] 0).reverse
    if out.isEmpty then ['.'] else out

/-- The function `cleanPath` of gorilla/mux, on the characters of the path. -/
def cleanPathChars (p : List Char) : List Char :=
  if p.isEmpty then ['/']
  else
    let p1 := if p.head? == some '/' then p else '/' :: p
    let np := CleanChars p1
    if p1.getLast? == some '/' && np != ['/'] then np ++ ['/'] else np

/-- The function `cleanPath` of gorilla/mux. -/
def cleanPath (p : String) : String :=
  ⟨cleanPathChars p.data⟩

/-! ## The router (gorilla/mux)

Routes are tried in the order of registration and the first that matches
wins.  Only the two matchers this program builds are modelled, on templates
without `\x7bname\x7d` variables: `Path(tpl)` (the regular expression
`^tpl$`) and `PathPrefix(tpl)` (`^tpl`). -/

/-- A URL, with the fields `Scheme`, `Host`, `Path` and `RawQuery` of `url.URL`. -/
structure URL where
  Scheme : String
  Host : String
  Path : String
  RawQuery : String
  deriving DecidableEq, Repr

/-- What a route hands a request to.  `func f` is a function registered by
the surrounding application through `TWHandler.HandleFunc`. -/
inductive Target (F : Type) where
  | reverseProxy (target : URL)
  | listSongs
  | getCurrentSong
  | getUpcomingSongs
  | addSong
  | fileServer (root : String)
  | func (f : F)
  deriving DecidableEq, Repr

/-- The path matcher of a route. -/
inductive Matcher where
  | path (tpl : String)
  | pathPrefix (tpl : String)
  deriving DecidableEq, Repr

/-- Whether the matcher accepts the request path.  A template that is not
empty and does not begin with a slash leaves the route in error, and such a
route matches nothing. -/
def Matcher.Match (m : Matcher) (path : String) : Bool :=
  match m with
  | .path tpl => (tpl.data.isEmpty || tpl.data.head? == some '/') && path == tpl
  | .pathPrefix tpl =>
    (tpl.data.isEmpty || tpl.data.head? == some '/') && tpl.data.isPrefixOf path.data

/-- One route: a matcher and the handler it leads to. -/
structure Route (F : Type) where
  matcher : Matcher
  handler : Target F

/-- Type `mux.Router`: the routes, in the order of registration. -/
structure Router (F : Type) where
  routes : List (Route F)

/-- Go `mux.NewRouter()`. -/
def NewRouter (F : Type) : Router F :=
  ⟨[]⟩

/-- Method `Router.HandleFunc(path, f)`: `NewRoute().Path(path).HandlerFunc(f)`,
the new route being appended to the routes. -/
def Router.HandleFunc {F : Type} (r : Router F) (path : String) (f : Target F) : Router F :=
  ⟨r.routes ++ [⟨.path path, f⟩]⟩

/-- Go `r.PathPrefix(tpl).Handler(handler)`. -/
def Router.PathPrefixHandler {F : Type} (r : Router F) (tpl : String) (handler : Target F) :
    Router F :=
  ⟨r.routes ++ [⟨.pathPrefix tpl, handler⟩]⟩

/-- Method `Router.Match`: the handler of the first route that matches. -/
def Router.Match {F : Type} (r : Router F) (path : String) : Option (Target F) :=
  (r.routes.find? (fun rt => rt.matcher.Match path)).map (fun rt => rt.handler)

/-- What `Router.ServeHTTP` does with a request. -/
inductive Dispatch (F : Type) where
  /-- The path is not in canonical form: the router itself answers 301 with
  the canonical path as location, and no handler runs. -/
  | movedPermanently (location : String)
  /-- The request is handed to the handler of the first matching route. -/
  | handler (t : Target F)
  /-- No route matches: `http.NotFoundHandler()`. -/
  | notFound
  deriving DecidableEq, Repr

/-- Method `Router.ServeHTTP`, on the path of the request. -/
def Router.ServeHTTP {F : Type} (r : Router F) (path : String) : Dispatch F :=
  if cleanPath path != path then .movedPermanently (cleanPath path)
  else
    match r.Match path with
    | some t => .handler t
    | none => .notFound

/-! ## The reverse proxy (`httputil.NewSingleHostReverseProxy`) -/

/-- The function `singleJoiningSlash` of `net/http/httputil`. -/
def singleJoiningSlash (a b : String) : String :=
  let aslash := a.data.getLast? == some '/'
  let bslash := b.data.head? == some '/'
  if aslash && bslash then a ++ ⟨b.data.drop 1⟩
  else if !aslash && !bslash then a ++ "/" ++ b
  else a ++ b

/-- Type `http.Header`: each key with its values.  The server stores the
keys of an incoming request in canonical form. -/
abbrev Header := List (String × List String)

/-- An HTTP request as the gateway reads it: the method, the URL, the header,
the form as `ParseForm` leaves it (each key with its values), the body with
the field `ContentLength` (-1 when the length is not known), and the host
part of `RemoteAddr` as `net.SplitHostPort` gives it (`none` when
`RemoteAddr` is not of the form host:port). -/
structure Request where
  Method : String
  URL : URL
  Header : Header := []
  Form : List (String × List String)
  Body : String
  ContentLength : Int := 0
  ClientIP : Option String := none

/-- The director of `NewSingleHostReverseProxy(target)`: the rewriting of the
URL of the request to send upstream. -/
def director (target : URL) (req : Request) : Request :=
  { req with
    URL :=
      { Scheme := target.Scheme
        Host := target.Host
        Path := singleJoiningSlash target.Path req.URL.Path
        RawQuery :=
          if target.RawQuery == "" || req.URL.RawQuery == "" then
            target.RawQuery ++ req.URL.RawQuery
          else target.RawQuery ++ "&" ++ req.URL.RawQuery } }

/-- The function `validHeaderFieldByte` of `net/textproto`: the characters of
an HTTP token (digits, letters and ``!#$%&'*+-.^_`|~``). -/
def validHeaderFieldByte (c : Char) : Bool :=
  (decide ('0'.toNat ≤ c.toNat) && decide (c.toNat ≤ '9'.toNat))
    || (decide ('a'.toNat ≤ c.toNat) && decide (c.toNat ≤ 'z'.toNat))
    || (decide ('A'.toNat ≤ c.toNat) && decide (c.toNat ≤ 'Z'.toNat))
    || c == '!' || c == '#' || c == '$' || c == '%' || c == '&' || decide (c.toNat = 39)
    || c == '*' || c == '+' || c == '-' || c == '.' || c == '^' || c == '_'
    || decide (c.toNat = 96) || c == '|' || c == '~'

/-- The second loop of `canonicalMIMEHeaderKey`: upper case for the first
letter and for a letter after a dash, lower case for the other letters. -/
def canonicalLoop : Bool → List Char → List Char
  | _, [] => []
  | upper, c :: cs =>
    let c1 :=
      if upper && decide ('a'.toNat ≤ c.toNat) && decide (c.toNat ≤ 'z'.toNat) then
        Char.ofNat (c.toNat - 32)
      else if !upper && decide ('A'.toNat ≤ c.toNat) && decide (c.toNat ≤ 'Z'.toNat) then
        Char.ofNat (c.toNat + 32)
      else c
    c1 :: canonicalLoop (c1 == '-') cs

/-- Go `textproto.CanonicalMIMEHeaderKey`: a key with a character that is not
a token character (a space included) is returned as it is. -/
def CanonicalMIMEHeaderKey (s : String) : String :=
  if s.data.all validHeaderFieldByte then ⟨canonicalLoop true s.data⟩ else s

/-- Go `h.Del(key)`. -/
def Header.Del (h : Header) (key : String) : Header :=
  h.filter (fun kv => kv.1 != CanonicalMIMEHeaderKey key)

/-- Go `h.Set(key, value)`. -/
def Header.Set (h : Header) (key value : String) : Header :=
  h.Del key ++ [(CanonicalMIMEHeaderKey key, [value])]

/-- Go `h.Get(key)`: the first value of the key, or the empty string. -/
def Header.Get (h : Header) (key : String) : String :=
  match h.lookup (CanonicalMIMEHeaderKey key) with
  | some (v :: _) => v
  | _ => ""

/-- Go `strings.Split(s, ",")`, on characters: the current piece (in reverse)
and the text left. -/
def splitCommaLoop : List Char → List Char → List (List Char)
  | cur, [] => [cur.reverse]
  | cur, c :: cs => if c == ',' then cur.reverse :: splitCommaLoop [] cs
    else splitCommaLoop (c :: cur) cs

/-- Go `strings.Split(s, ",")`. -/
def splitComma (s : String) : List String :=
  (splitCommaLoop [] s.data).map (fun l => ⟨l⟩)

/-- Go `textproto.TrimString`: leading and trailing ASCII space (space, tab,
line feed, carriage return) removed. -/
def TrimString (s : String) : String :=
  let sp := fun (c : Char) => c == ' ' || c == '\t' || c == '\n' || c == '\r'
  ⟨((s.data.dropWhile sp).reverse.dropWhile sp).reverse⟩

/-- The function `trimOWS` of `httpguts`: leading and trailing spaces and
tabs removed. -/
def trimOWS (s : String) : String :=
  let sp := fun (c : Char) => c == ' ' || c == '\t'
  ⟨((s.data.dropWhile sp).reverse.dropWhile sp).reverse⟩

/-- The function `lowerASCII` of `httpguts`. -/
def lowerASCII (c : Char) : Char :=
  if decide ('A'.toNat ≤ c.toNat) && decide (c.toNat ≤ 'Z'.toNat) then Char.ofNat (c.toNat + 32)
  else c

/-- The function `tokenEqual` of `httpguts`: equality of ASCII text without
regard to case. -/
def tokenEqual (t1 t2 : String) : Bool :=
  t1.data.all (fun c => decide (c.toNat < 128))
    && t1.data.map lowerASCII == t2.data.map lowerASCII

/-- Go `httpguts.HeaderValuesContainsToken(values, token)`. -/
def HeaderValuesContainsToken (values : List String) (token : String) : Bool :=
  values.any (fun v => (splitComma v).any (fun piece => tokenEqual (trimOWS piece) token))

/-- The function `upgradeType` of `net/http/httputil`. -/
def upgradeType (h : Header) : String :=
  if HeaderValuesContainsToken ((h.lookup "Connection").getD []) "Upgrade" then h.Get "Upgrade"
  else ""

/-- Go `ascii.IsPrint`: every character lies between space and tilde. -/
def IsPrint (s : String) : Bool :=
  s.data.all (fun c => decide (32 ≤ c.toNat) && decide (c.toNat ≤ 126))

/-- The table `hopHeaders` of `net/http/httputil`. -/
def hopHeaders : List String :=
  ["Connection", "Proxy-Connection", "Keep-Alive", "Proxy-Authenticate",
   "Proxy-Authorization", "Te", "Trailer", "Transfer-Encoding", "Upgrade"]

/-- The header names listed in the values of `Connection`, as the first loop
of `removeHopByHopHeaders` reads them. -/
def connectionOptions (h : Header) : List String :=
  (((h.lookup "Connection").getD []).map
    (fun f => ((splitComma f).map TrimString).filter (fun sf => sf != ""))).flatten

/-- The function `removeHopByHopHeaders`: the headers named in `Connection`
are deleted, then the headers of `hopHeaders`. -/
def removeHopByHopHeaders (h : Header) : Header :=
  (connectionOptions h ++ hopHeaders).foldl Header.Del h

/-- Step of `ReverseProxy.ServeHTTP` after the removal of the hop-by-hop
headers: `Te: trailers` is put back when the incoming request announced it. -/
def restoreTrailers (incoming h : Header) : Header :=
  if HeaderValuesContainsToken ((incoming.lookup "Te").getD []) "trailers" then
    h.Set "Te" "trailers"
  else h

/-- Step of `ReverseProxy.ServeHTTP`: the headers of a protocol upgrade are
put back. -/
def restoreUpgrade (reqUpType : String) (h : Header) : Header :=
  if reqUpType != "" then (h.Set "Connection" "Upgrade").Set "Upgrade" reqUpType else h

/-- Step of `ReverseProxy.ServeHTTP`: the address of the client is appended
to `X-Forwarded-For`.  A key that is present with a nil slice (here the empty
list of values) leaves the header out. -/
def setForwardedFor (clientIP : Option String) (h : Header) : Header :=
  match clientIP with
  | none => h
  | some ip =>
    match h.lookup "X-Forwarded-For" with
    | none => h.Set "X-Forwarded-For" ip
    | some [] => h
    | some (p :: ps) => h.Set "X-Forwarded-For" (", ".intercalate (p :: ps) ++ ", " ++ ip)

/-- Step of `ReverseProxy.ServeHTTP`: a request without `User-Agent` gets an
empty one, so that the transport adds none of its own. -/
def setUserAgent (h : Header) : Header :=
  match h.lookup "User-Agent" with
  | none => h.Set "User-Agent" ""
  | some _ => h

/-- The request `ReverseProxy.ServeHTTP` hands to its transport for an
incoming request: the clone of the request (without body when
`ContentLength` is 0), rewritten by the director, with the header treated as
above.  The result is `none` when the proxy refuses the request itself (an
upgrade to a protocol whose name is not printable) and sends nothing
upstream.  The router hands the request over unparsed (`r.Form` is nil at
this point), so the query is not cleaned. -/
def outgoingRequest (target : URL) (req : Request) : Option Request :=
  let outreq := director target { req with Body := if req.ContentLength == 0 then "" else req.Body }
  let reqUpType := upgradeType outreq.Header
  if !IsPrint reqUpType then none
  else
    some { outreq with
      Header := setUserAgent (setForwardedFor req.ClientIP (restoreUpgrade reqUpType
        (restoreTrailers req.Header (removeHopByHopHeaders outreq.Header)))) }

/-! ## The gateway -/

/-- A Go `error` value that is not nil, by the text `Error()` returns. -/
structure GoError where
  Error : String
  deriving DecidableEq, Repr

/-- A Go slice of tracks: `none` is the nil slice, `some xs` a slice that is
not nil (the empty one included). -/
abbrev Tracks := Option (List Track)

/-- A slice as the JSON encoder sees it: a nil slice is written `null`, any
other slice as an array. -/
def Tracks.toJson : Tracks → Json
  | none => .null
  | some xs => .arr xs

/-- The control client `TWMPDClient`, by what its methods return.  Its source
is not part of `TWHandler.go`; the gateway only calls these five methods. -/
structure TWMPDClient where
  Startup : Option GoError
  GetFiles : Except GoError Tracks
  CurrentSong : Except GoError Track
  GetUpcoming : Except GoError Tracks
  Add : String → Option GoError

/-- A call of a method of the control client. -/
inductive ClientCall where
  | GetFiles
  | CurrentSong
  | GetUpcoming
  | Add (song : String)
  deriving DecidableEq, Repr

/-- Type `map[string]string` of the configuration. -/
abbrev Config := List (String × String)

/-- Go `config[key]`: the value, or the empty string for a missing key. -/
def Config.get (config : Config) (key : String) : String :=
  (config.lookup key).getD ""

/-- Type `TWHandler`. -/
structure TWHandler (F : Type) where
  MpdClient : TWMPDClient
  ServerConfig : Config
  Router : Router F

/-- What a handler has done so far: the bytes written to the
`http.ResponseWriter`, the lines sent to the logger (without the time stamp
the logger puts in front), the calls made to the control client, and the
run-time panic that ended the handler, if any. -/
structure Effects where
  body : String
  log : List String
  calls : List ClientCall
  panic : Option String
  deriving DecidableEq, Repr

/-- The state in which the router hands a request to a handler. -/
def Effects.start : Effects :=
  ⟨"", [], [], none⟩

/-- Go `fmt.Fprintf(w, format)`, with no operand. -/
def Fprintf (w : Effects) (format : String) : Effects :=
  { w with body := w.body ++ Sprintf format }

/-- Go `log.Println(label, err)` for an error value: the operands separated
by a space, `<nil>` for a nil error. -/
def logError (w : Effects) (label : String) (err : Option GoError) : Effects :=
  { w with log := w.log ++ [label ++ " " ++ (match err with
      | some e => e.Error
      | none => "<nil>") ++ "\n"] }

/-- Go `log.Println(label, msg)` for a string. -/
def logString (w : Effects) (label msg : String) : Effects :=
  { w with log := w.log ++ [label ++ " " ++ msg ++ "\n"] }

/-- Function `printError`. -/
def printError (w : Effects) (msg : String) (err : Option GoError) : Effects :=
  let w1 := logError w "ERROR:" err
  let w2 := logString w1 "Sending to client:" msg
  Fprintf w2 (msg ++ "\n")

/-- Function `jsoniffy`.  The branch `err != nil` (log and exit) is not
reachable on a JSON tree, see `MarshalIndent`. -/
def jsoniffy (v : Json) : String :=
  MarshalIndent v "" "  "

/-- Method `listSongs`. -/
def TWHandler.listSongs {F : Type} (h : TWHandler F) (w : Effects) (_r : Request) : Effects :=
  let w1 := { w with calls := w.calls ++ [ClientCall.GetFiles] }
  match h.MpdClient.GetFiles with
  | .error err => printError w1 "An error occured while processing your request" (some err)
  | .ok files => Fprintf w1 (jsoniffy files.toJson)

/-- Method `getCurrentSong`. -/
def TWHandler.getCurrentSong {F : Type} (h : TWHandler F) (w : Effects) (_r : Request) :
    Effects :=
  let w1 := { w with calls := w.calls ++ [ClientCall.CurrentSong] }
  match h.MpdClient.CurrentSong with
  | .error err => printError w1 "Couldn't get current song info" (some err)
  | .ok currentSong => Fprintf w1 (jsoniffy currentSong)

/-- Method `getUpcomingSongs`. -/
def TWHandler.getUpcomingSongs {F : Type} (h : TWHandler F) (w : Effects) (_r : Request) :
    Effects :=
  let w1 := { w with calls := w.calls ++ [ClientCall.GetUpcoming] }
  match h.MpdClient.GetUpcoming with
  | .error err => printError w1 "Couldn't get upcoming playlist" (some err)
  | .ok upcoming => Fprintf w1 (jsoniffy upcoming.toJson)

/-- Method `addSong`.  `r.Form` is the form after `r.ParseForm()`; `song[0]`
on an empty slice panics. -/
def TWHandler.addSong {F : Type} (h : TWHandler F) (w : Effects) (r : Request) : Effects :=
  match r.Form.lookup "song" with
  | none => printError w "No song specified" none
  | some [] => { w with panic := some "index out of range [0] with length 0" }
  | some (song0 :: _) =>
    let w1 := { w with calls := w.calls ++ [ClientCall.Add song0] }
    match h.MpdClient.Add song0 with
    | some err => printError w1 "Unknown song" (some err)
    | none => Fprintf w1 (jsoniffy (.obj [("note", .str ("Added song: " ++ song0))]))

/-- The target of the stream proxy, the literal `&url.URL` of lines 40 to 44. -/
def streamTarget (config : Config) : URL :=
  { Scheme := "http"
    Host := Config.get config "mpd_domain" ++ ":" ++ Config.get config "mpd_http_port"
    Path := "/"
    RawQuery := "" }

/-- The route table of `NewTWHandler`, lines 36 to 52: five exact paths,
then the catch-all prefix `/` for the static files. -/
def routeTable (F : Type) (config : Config) : Router F :=
  let r0 := NewRouter F
  let r1 := r0.HandleFunc "/stream" (.reverseProxy (streamTarget config))
  let r2 := r1.HandleFunc "/songs" .listSongs
  let r3 := r2.HandleFunc "/current" .getCurrentSong
  let r4 := r3.HandleFunc "/upcoming" .getUpcomingSongs
  let r5 := r4.HandleFunc "/add" .addSong
  r5.PathPrefixHandler "/" (.fileServer
    (Config.get config "turbo_wookie_directory" ++ "/frontend/turbo_wookie/web"))

/-- The result of `NewTWHandler`: the gateway, the error of `ReadConfig`, or
the end of the process in `log.Fatal` when the start of the control client
fails. -/
inductive Construction (α : Type) where
  | ok (h : α)
  | error (err : GoError)
  | fatal (err : GoError)

/-- Function `NewTWHandler`.  `ReadConfig` and `NewTWMPDClient` live in other
files of the package and are parameters here. -/
def NewTWHandler (F : Type) (ReadConfig : String → Except GoError Config)
    (NewTWMPDClient : Config → TWMPDClient) (filename : String) :
    Construction (TWHandler F) :=
  match ReadConfig filename with
  | .error err => .error err
  | .ok config =>
    let client := NewTWMPDClient config
    match client.Startup with
    | some err => .fatal err
    | none =>
      .ok { MpdClient := client, ServerConfig := config, Router := routeTable F config }

/-- Method `TWHandler.ServeHTTP`. -/
def TWHandler.ServeHTTP {F : Type} (h : TWHandler F) (path : String) : Dispatch F :=
  h.Router.ServeHTTP path

/-- Method `TWHandler.HandleFunc`. -/
def TWHandler.HandleFunc {F : Type} (h : TWHandler F) (path : String) (f : F) : TWHandler F :=
  { h with Router := h.Router.HandleFunc path (.func f) }

/-- The four control handlers. -/
inductive ControlHandler where
  | listSongs
  | getCurrentSong
  | getUpcomingSongs
  | addSong
  deriving DecidableEq, Repr

/-- The method of `TWHandler` behind a control handler. -/
def ControlHandler.serve {F : Type} (k : ControlHandler) (h : TWHandler F) (w : Effects)
    (r : Request) : Effects :=
  match k with
  | .listSongs => h.listSongs w r
  | .getCurrentSong => h.getCurrentSong w r
  | .getUpcomingSongs => h.getUpcomingSongs w r
  | .addSong => h.addSong w r

/-- The error returned by the control client call a handler makes on a
request (`GetFiles`, `CurrentSong`, `GetUpcoming`, or `Add` of the first
value of form field `song`): `none` when the call succeeds or is not made. -/
def ControlHandler.clientError (k : ControlHandler) (c : TWMPDClient) (r : Request) :
    Option GoError :=
  match k with
  | .listSongs => match c.GetFiles with
    | .error e => some e
    | .ok _ => none
  | .getCurrentSong => match c.CurrentSong with
    | .error e => some e
    | .ok _ => none
  | .getUpcomingSongs => match c.GetUpcoming with
    | .error e => some e
    | .ok _ => none
  | .addSong => match r.Form.lookup "song" with
    | some (song0 :: _) => c.Add song0
    | _ => none

/-! ## Sample values -/

/-- A configuration with the five keys the gateway reads. -/
def sampleConfig : Config :=
  [("mpd_domain", "localhost"), ("mpd_control_port", "6600"), ("mpd_http_port", "8000"),
   ("server_port", "9000"), ("turbo_wookie_directory", "/srv/tw")]

/-- A control client every call of which fails with `e` (after a good start). -/
def brokenClient (e : GoError) : TWMPDClient :=
  { Startup := none
    GetFiles := .error e
    CurrentSong := .error e
    GetUpcoming := .error e
    Add := fun _ => some e }

/-- A control client every call of which succeeds, with `files` as library. -/
def workingClient (files : List Track) : TWMPDClient :=
  { Startup := none
    GetFiles := .ok (some files)
    CurrentSong := .ok .null
    GetUpcoming := .ok (some [])
    Add := fun _ => none }

/-- The gateway `NewTWHandler` builds around a client, for `sampleConfig`. -/
def sampleGateway (c : TWMPDClient) : TWHandler Unit :=
  { MpdClient := c, ServerConfig := sampleConfig, Router := routeTable Unit sampleConfig }

/-- A request `GET /stream` from the client at 192.0.2.1, with three headers. -/
def streamRequest : Request :=
  { Method := "GET"
    URL := { Scheme := "", Host := "", Path := "/stream", RawQuery := "" }
    Header := [("Accept", ["*/*"]), ("Connection", ["keep-alive"]),
      ("Keep-Alive", ["timeout=5"])]
    Form := []
    Body := ""
    ContentLength := 0
    ClientIP := some "192.0.2.1" }

/-- A request for `path` with the given form and nothing else. -/
def sampleRequest (method path : String) (form : List (String × List String)) : Request :=
  { Method := method
    URL := { Scheme := "", Host := "", Path := path, RawQuery := "" }
    Form := form
    Body := "" }

/-! ## The library models on concrete inputs -/

example : Sprintf "Unknown song\n" = "Unknown song\n" := by decide
example : Sprintf "100%\n" = "100%!\n(MISSING)" := by decide
example : Sprintf "a%%b" = "a%b" := by decide
example : Sprintf "100% Pure" = "100%!P(MISSING)ure" := by decide
example : Sprintf "x%[1]d" = "x%!d(BADINDEX)" := by decide
example : Sprintf "x%*d" = "x%!(BADWIDTH)%!d(MISSING)" := by decide
example : Sprintf "x%.*d" = "x%!(BADPREC)%!d(MISSING)" := by decide
example : Sprintf "x%5.2" = "x%!(NOVERB)" := by decide
example : MarshalIndent (.obj [("note", .str "Added song: track42")]) "" "  "
    = "\x7b\n  \"note\": \"Added song: track42\"\n\x7d" := by decide
example : MarshalIndent (.arr [.str "a<b", .obj [], .arr [.num (-3), .null]]) "" "  "
    = "[\n  \"a\\u003cb\",\n  \x7b\x7d,\n  [\n    -3,\n    null\n  ]\n]" := by decide
example : cleanPath "/songs" = "/songs" := by decide
example : cleanPath "/songs/" = "/songs/" := by decide
example : cleanPath "//songs" = "/songs" := by decide
example : cleanPath "/a/./b/../../c/" = "/c/" := by decide
example : cleanPath "/../a/b/.." = "/a" := by decide
example : cleanPath "" = "/" := by decide
example : cleanPath "x/y" = "/x/y" := by decide
example : (⟨CleanChars "a/../../b/".data⟩ : String) = "../b" := by decide

/-! ## `fmt.Fprintf`: text without a percent sign is written as it is -/

theorem doPrintfLoop_of_no_percent (fuel : Nat) (s : List Char)
    (h : ∀ c ∈ s, c ≠ '%') : doPrintfLoop (fuel + 1) s = s := by
  have h1 : s.takeWhile (fun c => c != '%') = s := by
    rw [List.takeWhile_eq_self_iff]
    intro c hc
    simpa using h c hc
  have h2 : s.dropWhile (fun c => c != '%') = [] := by
    rw [List.dropWhile_eq_nil_iff]
    intro c hc
    simpa using h c hc
  simp only [doPrintfLoop, h1, h2]

theorem Sprintf_of_no_percent (s : String) (h : ∀ c ∈ s.data, c ≠ '%') : Sprintf s = s := by
  simp only [Sprintf, doPrintf]
  rw [doPrintfLoop_of_no_percent _ _ h]

/-! ## The error paths of the control handlers -/

theorem printError_body (w : Effects) (msg : String) (err : Option GoError) :
    (printError w msg err).body = w.body ++ Sprintf (msg ++ "\n") := by
  simp [printError, Fprintf, logString, logError]

theorem printError_calls (w : Effects) (msg : String) (err : Option GoError) :
    (printError w msg err).calls = w.calls := by
  simp [printError, Fprintf, logString, logError]

theorem printError_log (w : Effects) (msg : String) (err : GoError) :
    (printError w msg (some err)).log
      = w.log ++ ["ERROR: " ++ err.Error ++ "\n", "Sending to client: " ++ msg ++ "\n"] := by
  simp [printError, Fprintf, logString, logError]

theorem addSong_clientError {c : TWMPDClient} {r : Request} {e : GoError}
    (h : ControlHandler.addSong.clientError c r = some e) :
    ∃ song0 rest, r.Form.lookup "song" = some (song0 :: rest) ∧ c.Add song0 = some e := by
  simp only [ControlHandler.clientError] at h
  split at h
  · next song0 rest heq => exact ⟨song0, rest, heq, h⟩
  · exact absurd h (by simp)

/-- The line a control handler sends when its control client call fails,
appended to what the writer already holds. -/
theorem control_handler_error_line {F : Type} (k : ControlHandler) (h : TWHandler F)
    (w : Effects) (r : Request) (e : GoError) :
    k.clientError h.MpdClient r = some e →
    (k.serve h w r).body = w.body ++
      match k with
      | .listSongs => "An error occured while processing your request\n"
      | .getCurrentSong => "Couldn't get current song info\n"
      | .getUpcomingSongs => "Couldn't get upcoming playlist\n"
      | .addSong => "Unknown song\n" := by
  intro hfail
  cases k
  · have hs : Sprintf ("An error occured while processing your request" ++ "\n")
        = "An error occured while processing your request\n" := by decide
    simp only [ControlHandler.clientError] at hfail
    simp only [ControlHandler.serve, TWHandler.listSongs]
    split
    · rw [printError_body, hs]
    · next files heq => rw [heq] at hfail; exact absurd hfail (by simp)
  · have hs : Sprintf ("Couldn't get current song info" ++ "\n")
        = "Couldn't get current song info\n" := by decide
    simp only [ControlHandler.clientError] at hfail
    simp only [ControlHandler.serve, TWHandler.getCurrentSong]
    split
    · rw [printError_body, hs]
    · next files heq => rw [heq] at hfail; exact absurd hfail (by simp)
  · have hs : Sprintf ("Couldn't get upcoming playlist" ++ "\n")
        = "Couldn't get upcoming playlist\n" := by decide
    simp only [ControlHandler.clientError] at hfail
    simp only [ControlHandler.serve, TWHandler.getUpcomingSongs]
    split
    · rw [printError_body, hs]
    · next files heq => rw [heq] at hfail; exact absurd hfail (by simp)
  · have hs : Sprintf ("Unknown song" ++ "\n") = "Unknown song\n" := by decide
    obtain ⟨song0, rest, hform, hadd⟩ := addSong_clientError hfail
    simp only [ControlHandler.serve, TWHandler.addSong, hform, hadd]
    rw [printError_body, hs]

theorem start_body_append (t : String) : Effects.start.body ++ t = t := by
  apply String.ext_iff.mpr
  simp [Effects.start]

/-- C1, as amended.  When the control client call of a handler fails, with
whatever error, the response body is exactly the fixed message of the handler
followed by one newline: it is that line, whatever the text of the error. -/
theorem control_handler_error_body {F : Type} (k : ControlHandler) (h : TWHandler F)
    (r : Request) (e : GoError) :
    k.clientError h.MpdClient r = some e →
    (k.serve h Effects.start r).body =
      match k with
      | .listSongs => "An error occured while processing your request\n"
      | .getCurrentSong => "Couldn't get current song info\n"
      | .getUpcomingSongs => "Couldn't get upcoming playlist\n"
      | .addSong => "Unknown song\n" := by
  intro hfail
  rw [control_handler_error_line k h Effects.start r e hfail, start_body_append]

/-- Witness of C1 as amended: `/add` with `song=track42` on a client whose
`Add` fails with "connection refused". -/
theorem control_handler_error_body_witness :
    ControlHandler.addSong.clientError (sampleGateway (brokenClient ⟨"connection refused"⟩)).MpdClient
        (sampleRequest "POST" "/add" [("song", ["track42"])]) = some ⟨"connection refused"⟩
    ∧ (ControlHandler.addSong.serve (sampleGateway (brokenClient ⟨"connection refused"⟩))
        Effects.start (sampleRequest "POST" "/add" [("song", ["track42"])])).body
      = "Unknown song\n" :=
  ⟨by decide,
   control_handler_error_body ControlHandler.addSong
     (sampleGateway (brokenClient ⟨"connection refused"⟩))
     (sampleRequest "POST" "/add" [("song", ["track42"])]) ⟨"connection refused"⟩ (by decide)⟩

/-- C1 as stated fails.  On `/add` with a client whose `Add` fails with the
error text "song", the body is not the string "Unknown song" (a newline
follows it), and the body does contain the text of the error. -/
theorem control_handler_error_body_counterexample :
    (ControlHandler.addSong.serve (sampleGateway (brokenClient ⟨"song"⟩)) Effects.start
        (sampleRequest "POST" "/add" [("song", ["track42"])])).body ≠ "Unknown song"
    ∧ ∃ pre post : String,
        (ControlHandler.addSong.serve (sampleGateway (brokenClient ⟨"song"⟩)) Effects.start
          (sampleRequest "POST" "/add" [("song", ["track42"])])).body
          = pre ++ (GoError.mk "song").Error ++ post :=
  ⟨by decide, "Unknown ", "\n", by decide⟩

/-- C2.  Error isolation as a two-run statement: whatever errors `e1` and
`e2` the control client call of a handler returns in two runs on the same
request, the bytes written to the response are the same. -/
theorem error_isolation {F : Type} (k : ControlHandler) (h1 h2 : TWHandler F) (w : Effects)
    (r : Request) (e1 e2 : GoError) (hfail1 : k.clientError h1.MpdClient r = some e1)
    (hfail2 : k.clientError h2.MpdClient r = some e2) :
    (k.serve h1 w r).body = (k.serve h2 w r).body := by
  rw [control_handler_error_line k h1 w r e1 hfail1,
    control_handler_error_line k h2 w r e2 hfail2]

/-- Witness of C2: `/current` on two clients that fail with different errors. -/
theorem error_isolation_witness :
    (ControlHandler.getCurrentSong.serve (sampleGateway (brokenClient ⟨"dial tcp: refused"⟩))
        Effects.start (sampleRequest "GET" "/current" [])).body
      = (ControlHandler.getCurrentSong.serve (sampleGateway (brokenClient ⟨"ACK [50@0]"⟩))
        Effects.start (sampleRequest "GET" "/current" [])).body :=
  error_isolation ControlHandler.getCurrentSong _ _ Effects.start
    (sampleRequest "GET" "/current" []) ⟨"dial tcp: refused"⟩ ⟨"ACK [50@0]"⟩
    (by decide) (by decide)

theorem lookup_eq_none_of_no_key (form : List (String × List String)) (key : String)
    (h : ∀ kv ∈ form, kv.1 ≠ key) : form.lookup key = none := by
  induction form with
  | nil => rfl
  | cons kv rest ih =>
    obtain ⟨k, v⟩ := kv
    have hk : k ≠ key := h (k, v) (List.mem_cons_self _ _)
    have hne : (key == k) = false := by
      simpa using fun heq => hk heq.symm
    simp only [List.lookup, hne]
    exact ih (fun kv hkv => h kv (List.mem_cons_of_mem _ hkv))

/-- C3.  When the parsed form has no key `song`, whatever other keys it has,
`addSong` answers with the line "No song specified" and makes no call to the
control client, so `Add` is invoked for no identifier. -/
theorem addSong_no_song {F : Type} (h : TWHandler F) (r : Request)
    (hno : ∀ kv ∈ r.Form, kv.1 ≠ "song") :
    (h.addSong Effects.start r).body = "No song specified\n"
    ∧ (h.addSong Effects.start r).calls = []
    ∧ ∀ s : String, ClientCall.Add s ∉ (h.addSong Effects.start r).calls := by
  have hl := lookup_eq_none_of_no_key r.Form "song" hno
  have hs : Sprintf ("No song specified" ++ "\n") = "No song specified\n" := by decide
  have hc : (h.addSong Effects.start r).calls = [] := by
    simp only [TWHandler.addSong, hl, printError_calls]
    rfl
  refine ⟨?_, hc, ?_⟩
  · simp only [TWHandler.addSong, hl]
    rw [printError_body, hs, start_body_append]
  · intro s
    rw [hc]
    exact List.not_mem_nil _

/-- Witness of C3: a form with the keys `title` and `artist` only. -/
theorem addSong_no_song_witness :
    (∀ kv ∈ (sampleRequest "POST" "/add" [("title", ["a"]), ("artist", ["b"])]).Form,
        kv.1 ≠ "song")
    ∧ ((sampleGateway (workingClient [])).addSong Effects.start
        (sampleRequest "POST" "/add" [("title", ["a"]), ("artist", ["b"])])).body
      = "No song specified\n" :=
  ⟨by decide,
   (addSong_no_song (sampleGateway (workingClient []))
     (sampleRequest "POST" "/add" [("title", ["a"]), ("artist", ["b"])]) (by decide)).1⟩

/-- C9, as amended.  When `GetFiles` fails, `listSongs` answers with the line
"An error occured while processing your request" (the message as the code
spells it, with one r), followed by a newline. -/
theorem listSongs_error_message {F : Type} (h : TWHandler F) (r : Request) (e : GoError)
    (hfail : h.MpdClient.GetFiles = .error e) :
    (h.listSongs Effects.start r).body
      = "An error occured while processing your request\n" := by
  have hs : Sprintf ("An error occured while processing your request" ++ "\n")
      = "An error occured while processing your request\n" := by decide
  simp only [TWHandler.listSongs, hfail]
  rw [printError_body, hs]
  exact start_body_append _

/-- Witness of C9 as amended. -/
theorem listSongs_error_message_witness :
    ((sampleGateway (brokenClient ⟨"EOF"⟩)).listSongs Effects.start
        (sampleRequest "GET" "/songs" [])).body
      = "An error occured while processing your request\n" :=
  listSongs_error_message (sampleGateway (brokenClient ⟨"EOF"⟩))
    (sampleRequest "GET" "/songs" []) ⟨"EOF"⟩ rfl

/-- C9 as stated fails.  When `GetFiles` fails, the body of `listSongs` is
not the message spelled "occurred", with or without the closing newline. -/
theorem listSongs_error_message_counterexample :
    ((sampleGateway (brokenClient ⟨"EOF"⟩)).listSongs Effects.start
        (sampleRequest "GET" "/songs" [])).body
      ≠ "An error occurred while processing your request"
    ∧ ((sampleGateway (brokenClient ⟨"EOF"⟩)).listSongs Effects.start
        (sampleRequest "GET" "/songs" [])).body
      ≠ "An error occurred while processing your request\n" :=
  ⟨by decide, by decide⟩

/-! ## The format string of `printError` -/

theorem printError_body_of_no_percent (w : Effects) (msg : String) (err : Option GoError)
    (h : ∀ c ∈ msg.data, c ≠ '%') : (printError w msg err).body = w.body ++ msg ++ "\n" := by
  rw [printError_body, Sprintf_of_no_percent, String.append_assoc]
  intro c hc
  simp only [String.data_append, List.mem_append] at hc
  rcases hc with hc | hc
  · exact h c hc
  · have : c = '\n' := by simpa using hc
    rw [this]
    decide

/-- C10, as amended.  For every message without a percent sign, and every
error value, nil included, `printError` appends to the response exactly the
message and one newline, as plain text.  The five messages the handlers pass
hold no percent sign, and on every failure path the body of the handler is
what `printError` wrote: nothing is appended after it. -/
theorem printError_format (F : Type) (w : Effects) (msg : String) (err : Option GoError)
    (hmsg : ∀ c ∈ msg.data, c ≠ '%') :
    (printError w msg err).body = w.body ++ msg ++ "\n"
    ∧ (∀ m ∈ ["An error occured while processing your request",
          "Couldn't get current song info", "Couldn't get upcoming playlist",
          "No song specified", "Unknown song"], ∀ c ∈ m.data, c ≠ '%')
    ∧ (∀ (k : ControlHandler) (h : TWHandler F) (r : Request) (e : GoError),
        k.clientError h.MpdClient r = some e →
        (k.serve h w r).body =
          (printError w
            (match k with
              | .listSongs => "An error occured while processing your request"
              | .getCurrentSong => "Couldn't get current song info"
              | .getUpcomingSongs => "Couldn't get upcoming playlist"
              | .addSong => "Unknown song") (some e)).body)
    ∧ (∀ (h : TWHandler F) (r : Request), (∀ kv ∈ r.Form, kv.1 ≠ "song") →
        (h.addSong w r).body = (printError w "No song specified" none).body) := by
  refine ⟨printError_body_of_no_percent w msg err hmsg, by decide, ?_, ?_⟩
  · intro k h r e hfail
    rw [control_handler_error_line k h w r e hfail]
    cases k
    · rw [printError_body_of_no_percent _ _ _ (by decide), String.append_assoc]
      rfl
    · rw [printError_body_of_no_percent _ _ _ (by decide), String.append_assoc]
      rfl
    · rw [printError_body_of_no_percent _ _ _ (by decide), String.append_assoc]
      rfl
    · rw [printError_body_of_no_percent _ _ _ (by decide), String.append_assoc]
      rfl
  · intro h r hno
    simp only [TWHandler.addSong, lookup_eq_none_of_no_key r.Form "song" hno]

/-- Witness of C10 as amended: the message "Unknown song" with the error
"no such song". -/
theorem printError_format_witness :
    (∀ c ∈ "Unknown song".data, c ≠ '%')
    ∧ (printError Effects.start "Unknown song" (some ⟨"no such song"⟩)).body
      = Effects.start.body ++ "Unknown song" ++ "\n" :=
  ⟨by decide,
   (printError_format Unit Effects.start "Unknown song" (some ⟨"no such song"⟩) (by decide)).1⟩

/-- C10 as stated fails.  For the message "100%", `printError` does not
write the message and a newline: the percent sign and the newline are read as
a formatting directive, and the body is `100%!`, a newline, `(MISSING)`. -/
theorem printError_percent :
    (printError Effects.start "100%" none).body = "100%!\n(MISSING)"
    ∧ (printError Effects.start "100%" none).body ≠ "100%" ++ "\n" :=
  ⟨by decide, by decide⟩

/-! ## Canonical paths begin with a slash -/

theorem backtrack_rooted (out : List Char) :
    ∀ l : List Char, out = l ++ ['/'] → l ≠ [] → ∃ l2, backtrack 1 out = l2 ++ ['/'] := by
  induction out with
  | nil => intro l h; simp at h
  | cons c out ih =>
    intro l h hl
    cases l with
    | nil => exact absurd rfl hl
    | cons d l1 =>
      simp only [List.cons_append, List.cons.injEq] at h
      obtain ⟨_, hout⟩ := h
      simp only [backtrack]
      split
      · next hcond =>
        simp only [Bool.and_eq_true, decide_eq_true_eq] at hcond
        have hl1 : l1 ≠ [] := by
          intro hnil
          rw [hout, hnil] at hcond
          simp at hcond
        exact ih l1 hout hl1
      · exact ⟨l1, hout⟩

theorem cleanLoop_rooted (fuel : Nat) :
    ∀ (inp out l : List Char), out = l ++ ['/'] →
      ∃ l2, cleanLoop true fuel inp out 1 = l2 ++ ['/'] := by
  induction fuel with
  | zero => intro inp out l h; exact ⟨l, by simp [cleanLoop, h]⟩
  | succ fuel ih =>
    intro inp out l h
    cases inp with
    | nil => exact ⟨l, by simp [cleanLoop, h]⟩
    | cons c rest =>
      simp only [cleanLoop]
      split
      · exact ih _ _ l h
      · split
        · exact ih _ _ l h
        · split
          · split
            · next hlen =>
              have hl : l ≠ [] := by
                intro hnil
                rw [h, hnil] at hlen
                simp at hlen
              obtain ⟨l2, h2⟩ := backtrack_rooted out l h hl
              exact ih _ _ l2 h2
            · simp only [Bool.not_true, Bool.false_eq_true, if_false]
              exact ih _ _ l h
          · split
            · refine ih _ _ (((c :: rest).takeWhile (fun x => x != '/')).reverse ++ '/' :: l) ?_
              simp [h]
            · refine ih _ _ (((c :: rest).takeWhile (fun x => x != '/')).reverse ++ l) ?_
              simp [h]

theorem CleanChars_rooted (rest : List Char) : ∃ t, CleanChars ('/' :: rest) = '/' :: t := by
  obtain ⟨l2, h2⟩ := cleanLoop_rooted (rest.length + 1) rest ['/'] [] rfl
  refine ⟨l2.reverse, ?_⟩
  simp [CleanChars, h2]

theorem cleanPathChars_fixed (p : List Char) (h : cleanPathChars p = p) :
    ∃ t, p = '/' :: t := by
  cases p with
  | nil => simp [cleanPathChars] at h
  | cons c rest =>
    by_cases hc : c = '/'
    · exact ⟨rest, by rw [hc]⟩
    · exfalso
      obtain ⟨t, ht⟩ := CleanChars_rooted (c :: rest)
      have hhead : (c :: rest).head? ≠ some '/' := by simpa using hc
      simp only [cleanPathChars, List.isEmpty_cons, Bool.false_eq_true, if_false] at h
      have hb : ((c :: rest).head? == some '/') = false := by simpa using hc
      simp only [hb, Bool.false_eq_true, if_false, ht] at h
      split at h
      · simp only [List.cons_append, List.cons.injEq] at h
        exact hc h.1.symm
      · simp only [List.cons.injEq] at h
        exact hc h.1.symm

theorem cleanPath_fixed (path : String) (h : cleanPath path = path) :
    ∃ t, path.data = '/' :: t := by
  apply cleanPathChars_fixed
  have := String.ext_iff.mp h
  simpa [cleanPath] using this

/-! ## The route table -/

theorem NewTWHandler_ok {F : Type} {ReadConfig : String → Except GoError Config}
    {NewTWMPDClient : Config → TWMPDClient} {filename : String} {h : TWHandler F}
    (hnew : NewTWHandler F ReadConfig NewTWMPDClient filename = .ok h) :
    h.Router = routeTable F h.ServerConfig ∧ ReadConfig filename = .ok h.ServerConfig
      ∧ h.MpdClient = NewTWMPDClient h.ServerConfig := by
  unfold NewTWHandler at hnew
  split at hnew
  · exact absurd hnew (by simp)
  · next config hcfg =>
    simp only at hnew
    split at hnew
    · exact absurd hnew (by simp)
    · simp only [Construction.ok.injEq] at hnew
      subst hnew
      exact ⟨rfl, hcfg, rfl⟩

/-- The first matching route of the table of `NewTWHandler`, for a path that
begins with a slash. -/
theorem routeTable_Match (F : Type) (config : Config) (path : String) (t : List Char)
    (hpath : path.data = '/' :: t) :
    (routeTable F config).Match path = some
      (if path = "/stream" then
        .reverseProxy
          { Scheme := "http"
            Host := Config.get config "mpd_domain" ++ ":" ++ Config.get config "mpd_http_port"
            Path := "/"
            RawQuery := "" }
      else if path = "/songs" then .listSongs
      else if path = "/current" then .getCurrentSong
      else if path = "/upcoming" then .getUpcomingSongs
      else if path = "/add" then .addSong
      else .fileServer
        (Config.get config "turbo_wookie_directory" ++ "/frontend/turbo_wookie/web")) := by
  have hprefix : "/".data.isPrefixOf path.data = true := by
    rw [hpath]
    simp [List.isPrefixOf]
  simp only [routeTable, streamTarget, NewRouter, Router.HandleFunc, Router.PathPrefixHandler, Router.Match,
    List.nil_append, List.cons_append, List.find?, Matcher.Match, hprefix]
  by_cases h1 : path = "/stream"
  · simp [h1]
  by_cases h2 : path = "/songs"
  · simp [h2]
  by_cases h3 : path = "/current"
  · simp [h3]
  by_cases h4 : path = "/upcoming"
  · simp [h4]
  by_cases h5 : path = "/add"
  · simp [h5]
  have b1 : (path == "/stream") = false := by simpa using h1
  have b2 : (path == "/songs") = false := by simpa using h2
  have b3 : (path == "/current") = false := by simpa using h3
  have b4 : (path == "/upcoming") = false := by simpa using h4
  have b5 : (path == "/add") = false := by simpa using h5
  simp [h1, h2, h3, h4, h5, b1, b2, b3, b4, b5]

/-- What the gateway built by `NewTWHandler` does with each request path. -/
theorem ServeHTTP_of_NewTWHandler {F : Type} (ReadConfig : String → Except GoError Config)
    (NewTWMPDClient : Config → TWMPDClient) (filename : String) (h : TWHandler F)
    (hnew : NewTWHandler F ReadConfig NewTWMPDClient filename = .ok h) (path : String) :
    h.ServeHTTP path =
      if cleanPath path ≠ path then .movedPermanently (cleanPath path)
      else if path = "/stream" then
        .handler (.reverseProxy
          { Scheme := "http"
            Host := Config.get h.ServerConfig "mpd_domain" ++ ":"
              ++ Config.get h.ServerConfig "mpd_http_port"
            Path := "/"
            RawQuery := "" })
      else if path = "/songs" then .handler .listSongs
      else if path = "/current" then .handler .getCurrentSong
      else if path = "/upcoming" then .handler .getUpcomingSongs
      else if path = "/add" then .handler .addSong
      else .handler (.fileServer
        (Config.get h.ServerConfig "turbo_wookie_directory" ++ "/frontend/turbo_wookie/web")) := by
  obtain ⟨hrouter, _, _⟩ := NewTWHandler_ok hnew
  simp only [TWHandler.ServeHTTP, Router.ServeHTTP, hrouter]
  by_cases hclean : cleanPath path = path
  · obtain ⟨t, ht⟩ := cleanPath_fixed path hclean
    rw [routeTable_Match F h.ServerConfig path t ht]
    simp only [hclean, bne_self_eq_false, Bool.false_eq_true, if_false, ne_eq,
      not_true_eq_false]
    split_ifs <;> rfl
  · have hb : (cleanPath path != path) = true := by simpa using hclean
    simp [hb, hclean]

/-- C7, as amended.  The gateway built by `NewTWHandler` treats a request
path in exactly one way.  A path that is not in canonical form is answered by
the router itself with a redirect to the canonical path and reaches no
handler.  A canonical path goes to the first matching route: `/stream` to the
reverse proxy, `/songs`, `/current`, `/upcoming` and `/add` to their control
handlers, and every other path to the static file server.  Hence a path
other than the four control paths never reaches a control handler. -/
theorem route_table_dispatch {F : Type} (ReadConfig : String → Except GoError Config)
    (NewTWMPDClient : Config → TWMPDClient) (filename : String) (h : TWHandler F)
    (hnew : NewTWHandler F ReadConfig NewTWMPDClient filename = .ok h) (path : String) :
    (h.ServeHTTP path =
      if cleanPath path ≠ path then .movedPermanently (cleanPath path)
      else if path = "/stream" then
        .handler (.reverseProxy
          { Scheme := "http"
            Host := Config.get h.ServerConfig "mpd_domain" ++ ":"
              ++ Config.get h.ServerConfig "mpd_http_port"
            Path := "/"
            RawQuery := "" })
      else if path = "/songs" then .handler .listSongs
      else if path = "/current" then .handler .getCurrentSong
      else if path = "/upcoming" then .handler .getUpcomingSongs
      else if path = "/add" then .handler .addSong
      else .handler (.fileServer
        (Config.get h.ServerConfig "turbo_wookie_directory" ++ "/frontend/turbo_wookie/web")))
    ∧ (path ≠ "/songs" → path ≠ "/current" → path ≠ "/upcoming" → path ≠ "/add" →
        h.ServeHTTP path ≠ .handler .listSongs
        ∧ h.ServeHTTP path ≠ .handler .getCurrentSong
        ∧ h.ServeHTTP path ≠ .handler .getUpcomingSongs
        ∧ h.ServeHTTP path ≠ .handler .addSong) := by
  have hd := ServeHTTP_of_NewTWHandler ReadConfig NewTWMPDClient filename h hnew path
  refine ⟨hd, ?_⟩
  intro h2 h3 h4 h5
  rw [hd]
  simp only [h2, h3, h4, h5, if_false]
  split_ifs <;> simp

/-- Witness of C7 as amended: `/songs/` goes to the static file server. -/
theorem route_table_dispatch_witness :
    NewTWHandler Unit (fun _ => .ok sampleConfig) (fun _ => workingClient []) "config.yaml"
      = .ok (sampleGateway (workingClient []))
    ∧ (sampleGateway (workingClient [])).ServeHTTP "/songs/"
      = .handler (.fileServer "/srv/tw/frontend/turbo_wookie/web") :=
  ⟨rfl,
   (route_table_dispatch (fun _ => .ok sampleConfig) (fun _ => workingClient []) "config.yaml"
     (sampleGateway (workingClient [])) rfl "/songs/").1.trans (by decide)⟩

/-- C7 as stated fails.  The path `//songs` matches no registered exact
route, yet it is not handed to the static file server (nor to any handler):
the router answers it with a redirect to `/songs`. -/
theorem route_table_dispatch_counterexample :
    NewTWHandler Unit (fun _ => .ok sampleConfig) (fun _ => workingClient []) "config.yaml"
      = .ok (sampleGateway (workingClient []))
    ∧ (sampleGateway (workingClient [])).ServeHTTP "//songs" = .movedPermanently "/songs"
    ∧ (sampleGateway (workingClient [])).ServeHTTP "//songs"
      ≠ .handler (.fileServer "/srv/tw/frontend/turbo_wookie/web") :=
  ⟨rfl, by decide, by decide⟩

/-! ## Routes added through `HandleFunc` -/

theorem Router_Match_append {F : Type} (r : Router F) (rt : Route F) (path : String)
    (t : Target F) (h : r.Match path = some t) :
    Router.Match ⟨r.routes ++ [rt]⟩ path = some t := by
  simp only [Router.Match] at h ⊢
  rw [List.find?_append]
  cases hfind : r.routes.find? (fun rt => rt.matcher.Match path) with
  | none => rw [hfind] at h; simp at h
  | some x => rw [hfind] at h; simpa using h

/-- A route added to the gateway of `NewTWHandler` changes the treatment of
no request: the catch-all prefix `/`, registered before it, matches first. -/
theorem HandleFunc_no_effect {F : Type} (ReadConfig : String → Except GoError Config)
    (NewTWMPDClient : Config → TWMPDClient) (filename : String) (h : TWHandler F)
    (hnew : NewTWHandler F ReadConfig NewTWMPDClient filename = .ok h)
    (p : String) (f : F) (path : String) :
    (h.HandleFunc p f).ServeHTTP path = h.ServeHTTP path := by
  obtain ⟨hrouter, _, _⟩ := NewTWHandler_ok hnew
  simp only [TWHandler.ServeHTTP, TWHandler.HandleFunc, Router.ServeHTTP, Router.HandleFunc]
  by_cases hclean : cleanPath path = path
  · obtain ⟨t, ht⟩ := cleanPath_fixed path hclean
    have hm := routeTable_Match F h.ServerConfig path t ht
    rw [← hrouter] at hm
    rw [Router_Match_append h.Router _ path _ hm, hm]
  · have hb : (cleanPath path != path) = true := by simpa using hclean
    simp [hb]

/-- C6 fails on the code.  After `HandleFunc("/hello", f)` on the gateway of
`NewTWHandler`, a request for `/hello` is handed to the static file server,
not to `f`. -/
theorem HandleFunc_hello :
    NewTWHandler Unit (fun _ => .ok sampleConfig) (fun _ => workingClient []) "config.yaml"
      = .ok (sampleGateway (workingClient []))
    ∧ ((sampleGateway (workingClient [])).HandleFunc "/hello" ()).ServeHTTP "/hello"
      = .handler (.fileServer "/srv/tw/frontend/turbo_wookie/web")
    ∧ ((sampleGateway (workingClient [])).HandleFunc "/hello" ()).ServeHTTP "/hello"
      ≠ .handler (.func ()) :=
  ⟨rfl, by decide, by decide⟩

/-! ## The headers the reverse proxy sends upstream -/

theorem lookup_filter_ne (l : Header) (c k : String) :
    (l.filter (fun kv => kv.1 != c)).lookup k = if k = c then none else l.lookup k := by
  induction l with
  | nil => simp
  | cons kv rest ih =>
    obtain ⟨a, v⟩ := kv
    by_cases hac : a = c
    · have hf : ((a != c) = false) := by simpa using hac
      simp only [List.filter, hf, ih]
      by_cases hk : k = c
      · simp [hk]
      · have hka : (k == a) = false := by
          simpa [hac] using hk
        simp [hk, List.lookup, hka]
    · have hf : ((a != c) = true) := by simpa using hac
      simp only [List.filter, hf, List.lookup]
      by_cases hka : k = a
      · have hb : (k == a) = true := by simpa using hka
        have hkc : ¬ k = c := by rw [hka]; exact hac
        simp [hb, hkc]
      · have hb : (k == a) = false := by simpa using hka
        simp only [hb, ih]

theorem lookup_Del (h : Header) (key k : String) :
    (h.Del key).lookup k = if k = CanonicalMIMEHeaderKey key then none else h.lookup k :=
  lookup_filter_ne h _ k

theorem lookup_append_single (l : Header) (c k : String) (v : List String) :
    (l ++ [(c, v)]).lookup k = match l.lookup k with
      | some x => some x
      | none => if k = c then some v else none := by
  induction l with
  | nil =>
    by_cases hk : k = c
    · simp [List.lookup, hk]
    · have hb : (k == c) = false := by simpa using hk
      simp [List.lookup, hk, hb]
  | cons kv rest ih =>
    obtain ⟨a, x⟩ := kv
    by_cases hka : (k == a) = true
    · simp [List.lookup, hka]
    · have hb : (k == a) = false := by simpa using hka
      simp only [List.cons_append, List.lookup, hb]
      exact ih

theorem lookup_Set (h : Header) (key value k : String) :
    (h.Set key value).lookup k
      = if k = CanonicalMIMEHeaderKey key then some [value] else h.lookup k := by
  unfold Header.Set
  rw [lookup_append_single, lookup_Del]
  by_cases hk : k = CanonicalMIMEHeaderKey key
  · simp [hk]
  · simp only [hk, if_false]
    cases h.lookup k <;> rfl

theorem lookup_foldl_Del (keys : List String) :
    ∀ (h : Header) (k : String),
      (keys.foldl Header.Del h).lookup k
        = if k ∈ keys.map CanonicalMIMEHeaderKey then none else h.lookup k := by
  induction keys with
  | nil => intro h k; simp
  | cons key rest ih =>
    intro h k
    simp only [List.foldl, ih, lookup_Del, List.map, List.mem_cons]
    by_cases h1 : k ∈ rest.map CanonicalMIMEHeaderKey
    · simp [h1]
    · by_cases h2 : k = CanonicalMIMEHeaderKey key
      · simp [h2]
      · simp [h1, h2]

theorem restoreTrailers_lookup (incoming h : Header) (k : String) (hk : k ≠ "Te") :
    (restoreTrailers incoming h).lookup k = h.lookup k := by
  have c : CanonicalMIMEHeaderKey "Te" = "Te" := by decide
  unfold restoreTrailers
  split
  · rw [lookup_Set, c, if_neg hk]
  · rfl

theorem restoreUpgrade_lookup (reqUpType : String) (h : Header) (k : String)
    (hc : k ≠ "Connection") (hu : k ≠ "Upgrade") :
    (restoreUpgrade reqUpType h).lookup k = h.lookup k := by
  have c1 : CanonicalMIMEHeaderKey "Connection" = "Connection" := by decide
  have c2 : CanonicalMIMEHeaderKey "Upgrade" = "Upgrade" := by decide
  unfold restoreUpgrade
  split
  · rw [lookup_Set, c2, if_neg hu, lookup_Set, c1, if_neg hc]
  · rfl

theorem setForwardedFor_lookup (clientIP : Option String) (h : Header) (k : String)
    (hk : k ≠ "X-Forwarded-For") : (setForwardedFor clientIP h).lookup k = h.lookup k := by
  have c : CanonicalMIMEHeaderKey "X-Forwarded-For" = "X-Forwarded-For" := by decide
  unfold setForwardedFor
  split
  · rfl
  · split
    · rw [lookup_Set, c, if_neg hk]
    · rfl
    · rw [lookup_Set, c, if_neg hk]

theorem setUserAgent_lookup (h : Header) (k : String) (hk : k ≠ "User-Agent") :
    (setUserAgent h).lookup k = h.lookup k := by
  have c : CanonicalMIMEHeaderKey "User-Agent" = "User-Agent" := by decide
  unfold setUserAgent
  split
  · rw [lookup_Set, c, if_neg hk]
  · rfl

/-- The request sent upstream, when the proxy does not refuse the request. -/
theorem outgoingRequest_eq (target : URL) (req : Request)
    (hup : IsPrint (upgradeType req.Header) = true) :
    outgoingRequest target req = some
      { director target { req with Body := if req.ContentLength == 0 then "" else req.Body } with
        Header := setUserAgent (setForwardedFor req.ClientIP
          (restoreUpgrade (upgradeType req.Header)
            (restoreTrailers req.Header (removeHopByHopHeaders req.Header)))) } := by
  simp [outgoingRequest, director, hup]

/-- The lookup of a key in the header sent upstream, for a key that the
last four steps do not set. -/
theorem outgoing_lookup (req : Request) (k : String) (h1 : k ≠ "Te") (h2 : k ≠ "Connection")
    (h3 : k ≠ "Upgrade") (h4 : k ≠ "X-Forwarded-For") (h5 : k ≠ "User-Agent") :
    (setUserAgent (setForwardedFor req.ClientIP (restoreUpgrade (upgradeType req.Header)
      (restoreTrailers req.Header (removeHopByHopHeaders req.Header))))).lookup k
      = if k ∈ (connectionOptions req.Header ++ hopHeaders).map CanonicalMIMEHeaderKey then none
        else req.Header.lookup k := by
  rw [setUserAgent_lookup _ _ h5, setForwardedFor_lookup _ _ _ h4,
    restoreUpgrade_lookup _ _ _ h2 h3, restoreTrailers_lookup _ _ _ h1]
  unfold removeHopByHopHeaders
  rw [lookup_foldl_Del]

/-! ## The stream route -/

/-- C8, as amended.  On the gateway of `NewTWHandler`, `/stream` goes to the
reverse proxy for `http://mpd_domain:mpd_http_port/`.  Unless the request
asks for an upgrade to a protocol whose name is not printable, the proxy
sends a request upstream, with scheme `http`, host
`mpd_domain:mpd_http_port` and path `/stream` (the path `/` of the target
joined with the path of the request), with the query, the method and the
body of the request.  Every header is passed on as it came, except the
hop-by-hop headers (those of the table `hopHeaders` and those named in
`Connection`), `X-Forwarded-For` and `User-Agent`: six of the hop-by-hop
headers are never sent, and `X-Forwarded-For` carries the address of the
client when the request had none. -/
theorem stream_forwarded {F : Type} (ReadConfig : String → Except GoError Config)
    (NewTWMPDClient : Config → TWMPDClient) (filename : String) (h : TWHandler F)
    (hnew : NewTWHandler F ReadConfig NewTWMPDClient filename = .ok h) (req : Request)
    (hpath : req.URL.Path = "/stream") (hbody : req.ContentLength = 0 → req.Body = "")
    (hup : IsPrint (upgradeType req.Header) = true) :
    h.ServeHTTP req.URL.Path = .handler (.reverseProxy (streamTarget h.ServerConfig))
    ∧ ∃ out : Request,
      outgoingRequest (streamTarget h.ServerConfig) req = some out
      ∧ out.URL =
          { Scheme := "http"
            Host := Config.get h.ServerConfig "mpd_domain" ++ ":"
              ++ Config.get h.ServerConfig "mpd_http_port"
            Path := "/stream"
            RawQuery := req.URL.RawQuery }
      ∧ out.Method = req.Method
      ∧ out.Body = req.Body
      ∧ (∀ k : String,
          k ∉ (connectionOptions req.Header ++ hopHeaders).map CanonicalMIMEHeaderKey →
          k ≠ "X-Forwarded-For" → k ≠ "User-Agent" →
          out.Header.lookup k = req.Header.lookup k)
      ∧ (∀ k ∈ ["Proxy-Connection", "Keep-Alive", "Proxy-Authenticate",
            "Proxy-Authorization", "Trailer", "Transfer-Encoding"],
          out.Header.lookup k = none)
      ∧ (∀ ip : String, req.ClientIP = some ip → req.Header.lookup "X-Forwarded-For" = none →
          out.Header.lookup "X-Forwarded-For" = some [ip]) := by
  refine ⟨?_, _, outgoingRequest_eq _ req hup, ?_, rfl, ?_, ?_, ?_, ?_⟩
  · obtain ⟨hrouter, _, _⟩ := NewTWHandler_ok hnew
    have hc : (cleanPath "/stream" != "/stream") = false := by decide
    simp only [TWHandler.ServeHTTP, Router.ServeHTTP, hrouter, hpath, hc]
    rw [routeTable_Match F h.ServerConfig "/stream" "stream".data rfl]
    simp [streamTarget]
  · have hj : singleJoiningSlash "/" "/stream" = "/stream" := by decide
    have hq : ("" : String) ++ req.URL.RawQuery = req.URL.RawQuery := by
      apply String.ext_iff.mpr
      simp
    simp [director, streamTarget, hpath, hj, hq]
  · show (if req.ContentLength == 0 then "" else req.Body) = req.Body
    by_cases hz : req.ContentLength = 0
    · simp [hz, hbody hz]
    · simp [hz]
  · intro k hk hx hu
    have hhop : ∀ key ∈ hopHeaders, k ≠ CanonicalMIMEHeaderKey key := by
      intro key hkey heq
      apply hk
      rw [heq]
      exact List.mem_map_of_mem _ (List.mem_append_right _ hkey)
    have kTe : k ≠ "Te" := hhop "Te" (by decide)
    have kCo : k ≠ "Connection" := hhop "Connection" (by decide)
    have kUp : k ≠ "Upgrade" := hhop "Upgrade" (by decide)
    show List.lookup k (setUserAgent _) = _
    rw [outgoing_lookup req k kTe kCo kUp hx hu, if_neg hk]
  · intro k hk
    have hall : ∀ x ∈ ["Proxy-Connection", "Keep-Alive", "Proxy-Authenticate",
        "Proxy-Authorization", "Trailer", "Transfer-Encoding"],
        x ∈ hopHeaders.map CanonicalMIMEHeaderKey ∧ x ≠ "Te" ∧ x ≠ "Connection"
          ∧ x ≠ "Upgrade" ∧ x ≠ "X-Forwarded-For" ∧ x ≠ "User-Agent" := by
      decide
    obtain ⟨hin, hne⟩ := hall k hk
    have hmem : k ∈ (connectionOptions req.Header ++ hopHeaders).map CanonicalMIMEHeaderKey := by
      simp only [List.map_append, List.mem_append]
      exact Or.inr hin
    show List.lookup k (setUserAgent _) = _
    rw [outgoing_lookup req k hne.1 hne.2.1 hne.2.2.1 hne.2.2.2.1 hne.2.2.2.2, if_pos hmem]
  · intro ip hip hprior
    have c : CanonicalMIMEHeaderKey "X-Forwarded-For" = "X-Forwarded-For" := by decide
    have hbefore : (restoreUpgrade (upgradeType req.Header)
        (restoreTrailers req.Header (removeHopByHopHeaders req.Header))).lookup
          "X-Forwarded-For" = none := by
      rw [restoreUpgrade_lookup _ _ _ (by decide) (by decide),
        restoreTrailers_lookup _ _ _ (by decide)]
      unfold removeHopByHopHeaders
      rw [lookup_foldl_Del, hprior]
      simp
    show List.lookup "X-Forwarded-For" (setUserAgent _) = _
    rw [setUserAgent_lookup _ _ (by decide), hip]
    simp only [setForwardedFor, hbefore]
    rw [lookup_Set, c, if_pos rfl]

/-- Witness of C8 as amended: `GET /stream` from 192.0.2.1 with
`mpd_domain = localhost` and `mpd_http_port = 8000`. -/
theorem stream_forwarded_witness :
    streamRequest.URL.Path = "/stream"
    ∧ (streamRequest.ContentLength = 0 → streamRequest.Body = "")
    ∧ IsPrint (upgradeType streamRequest.Header) = true
    ∧ (sampleGateway (workingClient [])).ServeHTTP "/stream"
      = .handler (.reverseProxy
          { Scheme := "http", Host := "localhost:8000", Path := "/", RawQuery := "" }) :=
  ⟨rfl, fun _ => rfl, by decide,
   (stream_forwarded (fun _ => .ok sampleConfig) (fun _ => workingClient []) "config.yaml"
     (sampleGateway (workingClient [])) rfl streamRequest rfl (fun _ => rfl) (by decide)).1⟩

/-- C8 as stated fails, on `GET /stream` from 192.0.2.1 with the headers
`Accept`, `Connection: keep-alive` and `Keep-Alive: timeout=5`.  The path
sent upstream is `/stream`, not `/`; and the headers are not passed through
unmodified: `Keep-Alive` and `Connection` are not sent, and
`X-Forwarded-For: 192.0.2.1`, which the request did not have, is. -/
theorem stream_forwarded_counterexample :
    NewTWHandler Unit (fun _ => .ok sampleConfig) (fun _ => workingClient []) "config.yaml"
      = .ok (sampleGateway (workingClient []))
    ∧ (sampleGateway (workingClient [])).ServeHTTP "/stream"
      = .handler (.reverseProxy (streamTarget sampleConfig))
    ∧ (outgoingRequest (streamTarget sampleConfig) streamRequest).map (fun o => o.URL.Path)
      = some "/stream"
    ∧ (outgoingRequest (streamTarget sampleConfig) streamRequest).map (fun o => o.URL.Path)
      ≠ some "/"
    ∧ streamRequest.Header.lookup "Keep-Alive" = some ["timeout=5"]
    ∧ (outgoingRequest (streamTarget sampleConfig) streamRequest).map
        (fun o => o.Header.lookup "Keep-Alive") = some none
    ∧ (outgoingRequest (streamTarget sampleConfig) streamRequest).map
        (fun o => o.Header.lookup "Connection") = some none
    ∧ streamRequest.Header.lookup "X-Forwarded-For" = none
    ∧ (outgoingRequest (streamTarget sampleConfig) streamRequest).map
        (fun o => o.Header.lookup "X-Forwarded-For") = some (some ["192.0.2.1"])
    ∧ (outgoingRequest (streamTarget sampleConfig) streamRequest).map
        (fun o => o.Header.lookup "Accept") = some (some ["*/*"]) :=
  ⟨rfl, by decide, by decide, by decide, by decide, by decide, by decide, by decide,
   by decide, by decide⟩

/-! ## The success paths -/

theorem hexDigit_ne_percent (n : Nat) : hexDigit n ≠ '%' := by
  unfold hexDigit
  by_cases hn : n < 16
  · interval_cases n <;> decide
  · have hlen : "0123456789abcdef".data.length ≤ n := by
      have : "0123456789abcdef".data.length = 16 := by decide
      omega
    rw [List.getD_eq_default _ _ hlen]
    decide

theorem encodeChar_no_percent (c : Char) (hc : c ≠ '%') : ∀ x ∈ encodeChar c, x ≠ '%' := by
  have h1 := hexDigit_ne_percent (c.toNat / 16)
  have h2 := hexDigit_ne_percent (c.toNat % 16)
  unfold encodeChar
  split_ifs <;> simp [hc, h1, h2]

theorem encodeString_no_percent (s : String) (hs : ∀ c ∈ s.data, c ≠ '%') :
    ∀ x ∈ encodeString s, x ≠ '%' := by
  intro x hx
  unfold encodeString at hx
  rcases List.mem_cons.mp hx with hx | hx
  · rw [hx]; decide
  · rcases List.mem_append.mp hx with hx | hx
    · obtain ⟨l, hl, hxl⟩ := List.mem_flatten.mp hx
      obtain ⟨c, hc, hcl⟩ := List.mem_map.mp hl
      rw [← hcl] at hxl
      exact encodeChar_no_percent c (hs c hc) x hxl
    · rw [List.mem_singleton.mp hx]; decide

/-- The success path of `addSong`: one call `Add(s)` for the first value `s`
of form field `song`, and the body is what `fmt.Fprintf` makes of the JSON
text used as format. -/
theorem addSong_success {F : Type} (h : TWHandler F) (r : Request) (s : String)
    (rest : List String) (hform : r.Form.lookup "song" = some (s :: rest))
    (hadd : h.MpdClient.Add s = none) :
    (h.addSong Effects.start r).calls = [ClientCall.Add s]
    ∧ (h.addSong Effects.start r).body
      = Sprintf (jsoniffy (.obj [("note", .str ("Added song: " ++ s))])) := by
  simp only [TWHandler.addSong, hform, hadd]
  refine ⟨rfl, ?_⟩
  simp only [Fprintf]
  exact start_body_append _

/-- The JSON text of the confirmation note. -/
theorem jsoniffy_note (s : String) :
    jsoniffy (.obj [("note", .str ("Added song: " ++ s))])
      = "\x7b\n  \"note\": " ++ ⟨encodeString ("Added song: " ++ s)⟩ ++ "\n\x7d" := by
  apply String.ext_iff.mpr
  have hk : encodeString "note" = "\"note\"".data := by decide
  simp [jsoniffy, MarshalIndent, indentValue, indentFields, newline, hk]

/-- For an identifier without a percent sign the body of `addSong` on success
is the indented JSON object with the single key `note`. -/
theorem addSong_success_of_no_percent {F : Type} (h : TWHandler F) (r : Request) (s : String)
    (rest : List String) (hform : r.Form.lookup "song" = some (s :: rest))
    (hadd : h.MpdClient.Add s = none) (hs : ∀ c ∈ s.data, c ≠ '%') :
    (h.addSong Effects.start r).calls = [ClientCall.Add s]
    ∧ (h.addSong Effects.start r).body
      = "\x7b\n  \"note\": " ++ ⟨encodeString ("Added song: " ++ s)⟩ ++ "\n\x7d" := by
  obtain ⟨hc, hb⟩ := addSong_success h r s rest hform hadd
  refine ⟨hc, ?_⟩
  rw [hb, Sprintf_of_no_percent, jsoniffy_note]
  rw [jsoniffy_note]
  have he := encodeString_no_percent ("Added song: " ++ s) (by
    intro c hc
    simp only [String.data_append, List.mem_append] at hc
    rcases hc with hc | hc
    · have hall : ∀ x ∈ "Added song: ".data, x ≠ '%' := by decide
      exact hall c hc
    · exact hs c hc)
  intro c hc
  simp only [String.data_append, List.mem_append] at hc
  rcases hc with (hc | hc) | hc
  · have hall : ∀ x ∈ "\x7b\n  \"note\": ".data, x ≠ '%' := by decide
    exact hall c hc
  · exact he c hc
  · have hall : ∀ x ∈ "\n\x7d".data, x ≠ '%' := by decide
    exact hall c hc

/-- The instance the specification gives: `song=track42`. -/
theorem addSong_track42 :
    ((sampleGateway (workingClient [])).addSong Effects.start
        (sampleRequest "POST" "/add" [("song", ["track42"])])).body
      = "\x7b\n  \"note\": \"Added song: track42\"\n\x7d"
    ∧ ((sampleGateway (workingClient [])).addSong Effects.start
        (sampleRequest "POST" "/add" [("song", ["track42"])])).calls
      = [ClientCall.Add "track42"] :=
  ⟨by decide, by decide⟩

/-- C4 fails on the code.  For the identifier `100%`, with `Add` succeeding,
`Add` is called once with it, but the body is not the JSON encoding of the
note: the percent sign and the closing quote of the JSON text are read as a
formatting directive, and the note reads `Added song: 100%!"(MISSING)`. -/
theorem addSong_percent :
    ((sampleGateway (workingClient [])).addSong Effects.start
        (sampleRequest "POST" "/add" [("song", ["100%"])])).calls = [ClientCall.Add "100%"]
    ∧ ((sampleGateway (workingClient [])).addSong Effects.start
        (sampleRequest "POST" "/add" [("song", ["100%"])])).body
      = "\x7b\n  \"note\": \"Added song: 100%!\"(MISSING)\n\x7d"
    ∧ ((sampleGateway (workingClient [])).addSong Effects.start
        (sampleRequest "POST" "/add" [("song", ["100%"])])).body
      ≠ MarshalIndent (.obj [("note", .str ("Added song: " ++ "100%"))]) "" "  " :=
  ⟨by decide, by decide, by decide⟩

/-- The elements of an array after the first are laid out one by one, in
the order of the list. -/
theorem indentElems_eq (pfx indent : String) (depth : Nat) (xs : List Json) :
    indentElems pfx indent depth xs
      = (xs.map (fun x => ',' :: newline pfx indent depth
          ++ indentValue pfx indent depth x)).flatten := by
  induction xs with
  | nil => simp [indentElems]
  | cons x xs ih => simp [indentElems, ih]

/-- The success path of `listSongs`: one call `GetFiles`, and the body is
what `fmt.Fprintf` makes of the JSON text of the tracks used as format. -/
theorem listSongs_success {F : Type} (h : TWHandler F) (r : Request) (files : Tracks)
    (hfiles : h.MpdClient.GetFiles = .ok files) :
    (h.listSongs Effects.start r).calls = [ClientCall.GetFiles]
    ∧ (h.listSongs Effects.start r).body = Sprintf (jsoniffy files.toJson) := by
  simp only [TWHandler.listSongs, hfiles]
  refine ⟨rfl, ?_⟩
  simp only [Fprintf]
  exact start_body_append _

/-- When the JSON text of the tracks holds no percent sign, the body of
`listSongs` is that text: the tracks in the order `GetFiles` gave them. -/
theorem listSongs_success_of_no_percent {F : Type} (h : TWHandler F) (r : Request)
    (files : List Track) (hfiles : h.MpdClient.GetFiles = .ok (some files))
    (hs : ∀ c ∈ (jsoniffy (.arr files)).data, c ≠ '%') :
    (h.listSongs Effects.start r).body = MarshalIndent (.arr files) "" "  " := by
  rw [(listSongs_success h r (some files) hfiles).2]
  exact Sprintf_of_no_percent _ hs

/-- A nil slice from `GetFiles` is written as `null`, not as an array. -/
theorem listSongs_nil {F : Type} (h : TWHandler F) (r : Request)
    (hfiles : h.MpdClient.GetFiles = .ok none) :
    (h.listSongs Effects.start r).body = "null" := by
  rw [(listSongs_success h r none hfiles).2]
  decide

/-- C5 fails on the code.  When `GetFiles` returns the two tracks with files
`50%.mp3` and `c.mp3`, the body of `listSongs` is not the JSON array of the
tracks: the first element reads `50%!m(MISSING)p3`, the characters `%.m` of
the JSON text having been read as a formatting directive. -/
theorem listSongs_percent :
    ((sampleGateway (workingClient
        [.obj [("file", .str "50%.mp3")], .obj [("file", .str "c.mp3")]])).listSongs
        Effects.start (sampleRequest "GET" "/songs" [])).body
      = "[\n  \x7b\n    \"file\": \"50%!m(MISSING)p3\"\n  \x7d,\n  \x7b\n    \"file\": \"c.mp3\"\n  \x7d\n]"
    ∧ MarshalIndent (.arr [.obj [("file", .str "50%.mp3")], .obj [("file", .str "c.mp3")]])
        "" "  "
      = "[\n  \x7b\n    \"file\": \"50%.mp3\"\n  \x7d,\n  \x7b\n    \"file\": \"c.mp3\"\n  \x7d\n]"
    ∧ ((sampleGateway (workingClient
        [.obj [("file", .str "50%.mp3")], .obj [("file", .str "c.mp3")]])).listSongs
        Effects.start (sampleRequest "GET" "/songs" [])).body
      ≠ MarshalIndent (.arr [.obj [("file", .str "50%.mp3")], .obj [("file", .str "c.mp3")]])
          "" "  " :=
  ⟨by decide, by decide, by decide⟩

/-! ## The fuel of the loops is never exhausted -/

theorem parsenumLoop_length (s : List Char) :
    ∀ (num : Nat) (isnum : Bool), (parsenumLoop num isnum s).2.2.length ≤ s.length := by
  induction s with
  | nil => intro num isnum; simp [parsenumLoop]
  | cons c cs ih =>
    intro num isnum
    simp only [parsenumLoop]
    split_ifs
    · simp
    · exact Nat.le_succ_of_le (ih _ _)
    · simp

theorem argNumber_length (s : List Char) : (argNumber s).1.length ≤ s.length := by
  unfold argNumber
  split
  · simp only [List.length_drop]
    omega
  · exact Nat.le_refl _

theorem precision_length (afterIndex good : Bool) (s : List Char) :
    (precision afterIndex good s).2.1.length ≤ s.length := by
  unfold precision
  split
  · next s1 =>
    have ha := argNumber_length s1
    simp only
    split
    · next s2 heq =>
      rw [heq] at ha
      simp only [List.length_cons] at ha ⊢
      omega
    · have hp := parsenumLoop_length (argNumber s1).1 0 false
      simp only [parsenum, List.length_cons]
      omega
  · exact Nat.le_refl _

theorem verbOut_length (good : Bool) (s : List Char) :
    (verbOut good s).rest.length ≤ s.length := by
  unfold verbOut
  split
  · simp
  · split_ifs <;> simp

theorem verb_length (s : List Char) : (verb s).rest.length ≤ s.length := by
  have h0 : (s.dropWhile isFlag).length ≤ s.length :=
    (List.dropWhile_sublist isFlag).length_le
  have ha := argNumber_length (s.dropWhile isFlag)
  unfold verb
  simp only
  refine Nat.le_trans (verbOut_length _ _) ?_
  split_ifs
  · refine Nat.le_trans (precision_length _ _ _) ?_
    split
    · next s1 heq =>
      rw [heq] at ha
      simp only [List.length_cons] at ha
      show s1.length ≤ s.length
      omega
    · have hp := parsenumLoop_length (argNumber (s.dropWhile isFlag)).1 0 false
      simp only [parsenum]
      omega
  · refine Nat.le_trans (argNumber_length _) ?_
    refine Nat.le_trans (precision_length _ _ _) ?_
    split
    · next s1 heq =>
      rw [heq] at ha
      simp only [List.length_cons] at ha
      show s1.length ≤ s.length
      omega
    · have hp := parsenumLoop_length (argNumber (s.dropWhile isFlag)).1 0 false
      simp only [parsenum]
      omega

/-- Fuel above the length of the format is never exhausted: the text written
does not depend on it. -/
theorem doPrintfLoop_fuel (fuel : Nat) :
    ∀ (s : List Char) (fuel2 : Nat), s.length < fuel → s.length < fuel2 →
      doPrintfLoop fuel s = doPrintfLoop fuel2 s := by
  induction fuel with
  | zero => intro s fuel2 h; omega
  | succ fuel ih =>
    intro s fuel2 h1 h2
    cases fuel2 with
    | zero => omega
    | succ fuel2 =>
      simp only [doPrintfLoop]
      split
      · rfl
      · next c afterPercent heq =>
        have hd : (s.dropWhile (fun c => c != '%')).length ≤ s.length :=
          (List.dropWhile_sublist _).length_le
        rw [heq] at hd
        simp only [List.length_cons] at hd
        have hv := verb_length afterPercent
        split_ifs
        · rfl
        · rw [ih (verb afterPercent).rest fuel2 (by omega) (by omega)]

/-- Fuel above the length of the unread path is never exhausted in
`path.Clean`. -/
theorem cleanLoop_fuel (rooted : Bool) (fuel : Nat) :
    ∀ (inp out : List Char) (dotdot fuel2 : Nat), inp.length < fuel → inp.length < fuel2 →
      cleanLoop rooted fuel inp out dotdot = cleanLoop rooted fuel2 inp out dotdot := by
  induction fuel with
  | zero => intro inp out dotdot fuel2 h; omega
  | succ fuel ih =>
    intro inp out dotdot fuel2 h1 h2
    cases fuel2 with
    | zero => omega
    | succ fuel2 =>
      cases inp with
      | nil => simp [cleanLoop]
      | cons c rest =>
        simp only [List.length_cons] at h1 h2
        have hdrop : (rest.drop 1).length ≤ rest.length := by
          simp only [List.length_drop]
          omega
        by_cases hc : (c == '/') = true
        · simp only [cleanLoop, hc, if_true]
          exact ih _ _ _ _ (by omega) (by omega)
        · have hne : (c != '/') = true := by simpa using hc
          have hd : ((c :: rest).dropWhile (fun x => x != '/')).length ≤ rest.length := by
            rw [List.dropWhile_cons, if_pos hne]
            exact (List.dropWhile_sublist _).length_le
          simp only [cleanLoop]
          split_ifs <;> exact ih _ _ _ _ (by omega) (by omega)

end TurboWookie
